import Mathlib

/-!
Verification of `nobrainer/validate.py` (kwyk repository).

The file embeds the two functions of `validate.py` — `validate_from_filepath`
(the Single-Volume Validator) and `validate_from_filepaths` (the Batch
Validator) — as executable Lean definitions and proves properties about them.

Modelling conventions:
* file names and paths are lists of characters; a path is a directory plus a
  final name component, mirroring `pathlib.Path.parent / name`;
* the collaborators (`nib.load`, `nib.save`, `nobrainer.predict.predict`,
  `nobrainer.volume.replace`, `nobrainer.io.read_mapping`,
  `nobrainer.metrics.dice_numpy`) are abstracted as function parameters, with
  the disk writes and console prints of the Batch Validator recorded in an
  explicit event trace;
* volumes are flattened label arrays (`List Nat`), boolean masks are
  `List Bool`, and the metric returns a rational number;
* Python exceptions are modelled by an error component (`PyErr`), and the
  Python `Path(...)` constructor applied to a non-path value (a tuple) is
  modelled as its actual behaviour, a `TypeError`.
-/

namespace KwykValidate

/-- Python semantics of `str.split('.')` on a list of characters: split at
every dot, keeping empty segments, so `"a..b"` yields `["a", "", "b"]` and
the empty string yields `[""]`. -/
def splitOnDot : List Char → List (List Char)
  | [] => [[]]
  | c :: rest =>
    let r := splitOnDot rest
    if c = '.' then [] :: r
    else
      match r with
      | [] => [[c]]
      | h :: t => (c :: h) :: t

/-- Python semantics of `str.rfind('.')`: the index of the last dot, if any. -/
def rfindDot (cs : List Char) : Option Nat :=
  ((List.range cs.length).filter fun i => cs.getD i ' ' == '.').getLast?

/-- Python semantics of `PurePath.stem`: the final component without its last
suffix.  A dot at position `i` strips the tail only when `0 < i < len - 1`. -/
def pyStem (cs : List Char) : List Char :=
  match rfindDot cs with
  | none => cs
  | some i => if 0 < i ∧ i + 1 < cs.length then cs.take i else cs

/-- Python semantics of `PurePath.suffixes`: empty when the name ends in a
dot; otherwise strip leading dots, split on dots, drop the first segment and
re-attach a leading dot to each remaining segment. -/
def pySuffixes (cs : List Char) : List (List Char) :=
  if cs.getLast? = some '.' then []
  else ((splitOnDot (cs.dropWhile fun c => c = '.')).tail).map fun s => '.' :: s

/-- Python semantics of `'.'.join(...)` over character lists. -/
def joinDots (xs : List (List Char)) : List Char :=
  List.intercalate ['.'] xs

/-- Filesystem path: a directory part plus a final name component. -/
structure PyPath where
  dir : List Char
  name : List Char
deriving DecidableEq, Repr

/-- Line 139 of validate.py: `outpath.parent / (outpath.stem + '_mean.' + suffixes)`
where `suffixes = '.'.join(s for s in outpath.suffixes)`. -/
def meanPath (p : PyPath) : PyPath :=
  ⟨p.dir, pyStem p.name ++ "_mean.".data ++ joinDots (pySuffixes p.name)⟩

/-- Line 140 of validate.py: the `_variance.` output path. -/
def variancePath (p : PyPath) : PyPath :=
  ⟨p.dir, pyStem p.name ++ "_variance.".data ++ joinDots (pySuffixes p.name)⟩

/-- Line 141 of validate.py: the `_entropy.` output path. -/
def entropyPath (p : PyPath) : PyPath :=
  ⟨p.dir, pyStem p.name ++ "_entropy.".data ++ joinDots (pySuffixes p.name)⟩

/-- Line 142 of validate.py: `outpath.parent / (outpath.stem + '_dice.npy')`. -/
def dicePath (p : PyPath) : PyPath :=
  ⟨p.dir, pyStem p.name ++ "_dice.npy".data⟩

/-- Numpy semantics of `np.equal(v, i)` for a flattened label volume:
the elementwise boolean mask of voxels carrying class label `i`. -/
def eqMask (v : List Nat) (i : Nat) : List Bool :=
  v.map fun x => x == i

/-- Lines 76–79 of validate.py:
`dice = np.zeros(n_classes)` followed by
`for i in range(n_classes): dice[i] = dice_numpy(np.equal(p, i), np.equal(y, i))`.
The metric `dice_numpy` is a collaborator and is passed as a parameter. -/
def diceVec (metric : List Bool → List Bool → ℚ)
    (prediction y : List Nat) (n_classes : Nat) : List ℚ :=
  (List.range n_classes).foldl
    (fun d i => d.set i (metric (eqMask prediction i) (eqMask y i)))
    (List.replicate n_classes 0)

/-- Folding index-wise writes over `List.range k` into a long-enough vector
rewrites exactly the first `k` cells. -/
lemma foldl_set_range (f : Nat → ℚ) (init : List ℚ) (k : Nat)
    (hk : k ≤ init.length) :
    (List.range k).foldl (fun d i => d.set i (f i)) init
      = (List.range k).map f ++ init.drop k := by
  induction k with
  | zero => simp
  | succ k ih =>
    have hk' : k ≤ init.length := Nat.le_of_succ_le hk
    have hlt : k < init.length := hk
    have hlen : ((List.range k).map f).length = k := by
      simp
    rw [List.range_succ, List.foldl_append, ih hk', List.foldl_cons, List.foldl_nil,
      List.set_append, hlen, if_neg (lt_irrefl k), Nat.sub_self,
      List.drop_eq_getElem_cons hlt, List.set_cons_zero, List.map_append]
    simp

/-- Characterization of the Dice loop: it produces the length-`n_classes`
vector whose entry `i` is the metric applied to the two class-`i` masks. -/
lemma diceVec_eq_map (metric : List Bool → List Bool → ℚ)
    (prediction y : List Nat) (n : Nat) :
    diceVec metric prediction y n
      = (List.range n).map
          (fun i => metric (eqMask prediction i) (eqMask y i)) := by
  unfold diceVec
  rw [foldl_set_range _ _ n (by simp)]
  simp

/-- Entry `i < n` of the Dice vector. -/
lemma diceVec_get (metric : List Bool → List Bool → ℚ)
    (prediction y : List Nat) (n i : Nat) (hi : i < n) :
    (diceVec metric prediction y n)[i]?
      = some (metric (eqMask prediction i) (eqMask y i)) := by
  rw [diceVec_eq_map, List.getElem?_map, List.getElem?_range hi, Option.map_some']

/-- Length of the Dice vector. -/
lemma diceVec_length (metric : List Bool → List Bool → ℚ)
    (prediction y : List Nat) (n : Nat) :
    (diceVec metric prediction y n).length = n := by
  rw [diceVec_eq_map]
  simp

/-- Python exceptions that the embedded code can raise. -/
inductive PyErr where
  | typeError
  | fileNotFound (msgPath : List Char)
  | indexError
  | nameError
  | alreadyExists (meanP varP entP : PyPath)
deriving DecidableEq, Repr

/-- Argument value for the `filepath` parameter of `validate_from_filepath`.
The docstring of the source states it is a tuple of two paths (volume at
index 0, ground truth at index 1); a plain string is also representable. -/
inductive PyVal where
  | str (s : List Char)
  | pairV (fst snd : List Char)
deriving DecidableEq, Repr

/-- Python semantics of the `Path(x)` constructor: it accepts a `str` or an
`os.PathLike`; applied to a tuple it raises `TypeError`. -/
def pyPathArg : PyVal → Except PyErr (List Char)
  | .str s => .ok s
  | .pairV _ _ => .error .typeError

/-- Python semantics of subscription `x[i]` for the values above: indexing a
string yields its `i`-th character as a one-character string, indexing a
two-tuple yields its components; out of range raises `IndexError`. -/
def pyIndex : PyVal → Nat → Except PyErr (List Char)
  | .str s, i =>
    match s.get? i with
    | some c => .ok [c]
    | none => .error .indexError
  | .pairV a _, 0 => .ok a
  | .pairV _ b, 1 => .ok b
  | .pairV _ _, _ => .error .indexError

/-- Lines 74–81 of validate.py: take `prediction_image = outputs[0]`, remap
the ground truth through the label mapping
(`y = replace(y, read_mapping(mapping_y))`), and fill the Dice vector class
by class.  `replace` and `read_mapping` are collaborators passed as
parameters. -/
def diceSection (replace : List Nat → List (Nat × Nat) → List Nat)
    (read_mapping : List Char → List (Nat × Nat))
    (metric : List Bool → List Bool → ℚ)
    (outputs : List (List Nat)) (y : List Nat) (mapping_y : List Char)
    (n_classes : Nat) : Except PyErr (List ℚ) :=
  match outputs.get? 0 with
  | none => .error .indexError
  | some prediction_image =>
    let y2 := replace y (read_mapping mapping_y)
    .ok (diceVec metric prediction_image y2 n_classes)

/-- Embedding of `validate_from_filepath` (lines 14–83 of validate.py).
`isFile` models `Path.is_file` against the current filesystem, `load` models
`nib.load`, and `predict` models `nobrainer.predict.predict` applied to the
loaded image (its flag and sampling arguments are absorbed into the
parameter).  The guard on line 57 applies `Path` to the whole `filepath`
argument — a tuple — exactly as the source does. -/
def validate_from_filepath (isFile : List Char → Bool)
    (load : List Char → List Nat)
    (predict : List Nat → List (List Nat))
    (replace : List Nat → List (Nat × Nat) → List Nat)
    (read_mapping : List Char → List (Nat × Nat))
    (metric : List Bool → List Bool → ℚ)
    (n_classes : Nat) (mapping_y : List Char) (filepath : PyVal) :
    Except PyErr (List (List Nat) × List ℚ) := do
  let p ← pyPathArg filepath
  if isFile p = false then do
    let m ← pyIndex filepath 0
    Except.error (.fileNotFound m)
  else do
    let _img := load (← pyIndex filepath 0)
    let y := load (← pyIndex filepath 1)
    let outputs := predict _img
    let dice ← diceSection replace read_mapping metric outputs y mapping_y n_classes
    return (outputs, dice)

/-- Observable actions of the Batch Validator: `nib.save` of a prediction
volume, the two `print` calls, and `np.save` of the Dice vector.  `Img` is
the type of the collaborator-produced output volumes. -/
inductive Event (Img : Type) where
  | save (img : Img) (target : PyPath)
  | printPath (p : PyPath)
  | printDice (mean : ℚ)
  | saveDice (target : PyPath) (dice : List ℚ)
deriving DecidableEq

/-- State threaded through the Batch Validator loop: the trace of emitted
events, the set of files currently on disk, and the latest values of the
loop-scoped Python variables `(filepath[0], dice, dicePath)` (`none` before
the first iteration binds them). -/
structure BatchState (Img : Type) where
  events : List (Event Img)
  fs : List PyPath
  last : Option (PyPath × List ℚ × PyPath)
deriving DecidableEq

/-- Numpy semantics of `np.mean` on a one-dimensional vector. -/
def listMean (l : List ℚ) : ℚ :=
  l.sum / l.length

/-- Lines 136–155 of validate.py: the body of one Batch Validator iteration
after the call to `validate_from_filepath` returned `(outputs, dice)`.
It derives the four output paths, checks the three volume paths for
pre-existing files, writes the mean volume, and selects which secondary
volume(s) to write.  The returned error component is `none` on success. -/
def iterBody {Img : Type} (returnVariance returnEntropy returnArrayFromImages : Bool)
    (n_samples : Nat) (st : BatchState Img) (filepath : PyPath × PyPath)
    (outputs : List Img) (dice : List ℚ) : BatchState Img × Option PyErr :=
  let outpath := filepath.1
  let meanP := meanPath outpath
  let varianceP := variancePath outpath
  let entropyP := entropyPath outpath
  let diceP := dicePath outpath
  let st := { st with last := some (filepath.1, dice, diceP) }
  if meanP ∈ st.fs ∨ varianceP ∈ st.fs ∨ entropyP ∈ st.fs then
    (st, some (.alreadyExists meanP varianceP entropyP))
  else
    match outputs.get? 0 with
    | none => (st, some .indexError)
    | some o0 =>
      let st := { st with events := st.events ++ [.save o0 meanP],
                          fs := st.fs ++ [meanP] }
      if returnArrayFromImages = false then
        let includeVariance := decide (1 < n_samples) && returnVariance
        if includeVariance && returnEntropy then
          match outputs.get? 1 with
          | none => (st, some .indexError)
          | some o1 =>
            let st := { st with events := st.events ++ [.save o1 varianceP],
                                fs := st.fs ++ [varianceP] }
            match outputs.get? 2 with
            | none => (st, some .indexError)
            | some o2 =>
              ({ st with events := st.events ++ [.save o2 entropyP],
                         fs := st.fs ++ [entropyP] }, none)
        else if includeVariance then
          match outputs.get? 1 with
          | none => (st, some .indexError)
          | some o1 =>
            ({ st with events := st.events ++ [.save o1 varianceP],
                       fs := st.fs ++ [varianceP] }, none)
        else
          match outputs.get? 1 with
          | none => (st, some .indexError)
          | some o1 =>
            ({ st with events := st.events ++ [.save o1 entropyP],
                       fs := st.fs ++ [entropyP] }, none)
      else
        (st, none)

/-- Loop of `validate_from_filepaths` (lines 119–155): run `iterBody` on each
file pair in order, stopping at the first raised exception.  The per-pair
result of the Single-Volume Validator is supplied by the collaborator
function `validate`. -/
def runLoop {Img : Type} (validate : PyPath × PyPath → List Img × List ℚ)
    (returnVariance returnEntropy returnArrayFromImages : Bool) (n_samples : Nat) :
    BatchState Img → List (PyPath × PyPath) → BatchState Img × Option PyErr
  | st, [] => (st, none)
  | st, fp :: rest =>
    match iterBody returnVariance returnEntropy returnArrayFromImages n_samples
        st fp (validate fp).1 (validate fp).2 with
    | (st', none) =>
        runLoop validate returnVariance returnEntropy returnArrayFromImages
          n_samples st' rest
    | (st', some e) => (st', some e)

/-- Embedding of `validate_from_filepaths` (lines 89–159 of validate.py):
run the loop, then execute the three statements after the loop —
`print(filepath[0])`, `print('Dice: ' + str(np.mean(dice)))`,
`np.save(dicePath, dice)` — which reference the loop-scoped variables; when
the loop never ran, those names are unbound and Python raises `NameError`. -/
def validate_from_filepaths {Img : Type}
    (validate : PyPath × PyPath → List Img × List ℚ)
    (returnVariance returnEntropy returnArrayFromImages : Bool) (n_samples : Nat)
    (fs0 : List PyPath) (filepaths : List (PyPath × PyPath)) :
    BatchState Img × Option PyErr :=
  match runLoop validate returnVariance returnEntropy returnArrayFromImages
      n_samples ⟨[], fs0, none⟩ filepaths with
  | (st, some e) => (st, some e)
  | (st, none) =>
    match st.last with
    | none => (st, some .nameError)
    | some (p, dice, diceP) =>
      ({ st with
          events := st.events ++
            [.printPath p, .printDice (listMean dice), .saveDice diceP dice],
          fs := st.fs ++ [diceP] }, none)

/-- Target of a volume write event, if the event is a `nib.save`. -/
def saveTarget {Img : Type} : Event Img → Option PyPath
  | .save _ t => some t
  | _ => none

lemma saveTarget_eq_some {Img : Type} (e : Event Img) (p : PyPath)
    (h : saveTarget e = some p) : ∃ o, e = Event.save o p := by
  cases e with
  | save o t => exact ⟨o, by simpa [saveTarget] using congrArg (Event.save o) (Option.some.inj h)⟩
  | printPath q => simp [saveTarget] at h
  | printDice m => simp [saveTarget] at h
  | saveDice t d => simp [saveTarget] at h

lemma mean_tag_length : ("_mean.".data).length = 6 := rfl

lemma variance_tag_length : ("_variance.".data).length = 10 := rfl

lemma entropy_tag_length : ("_entropy.".data).length = 9 := rfl

/-- Derived mean and variance paths of the same input never coincide. -/
lemma meanPath_ne_variancePath (p : PyPath) : meanPath p ≠ variancePath p := by
  intro h
  have h' := congrArg (fun q => q.name.length) h
  simp only [meanPath, variancePath, List.length_append] at h'
  rw [mean_tag_length, variance_tag_length] at h'
  omega

/-- Derived entropy and variance paths of the same input never coincide. -/
lemma entropyPath_ne_variancePath (p : PyPath) : entropyPath p ≠ variancePath p := by
  intro h
  have h' := congrArg (fun q => q.name.length) h
  simp only [entropyPath, variancePath, List.length_append] at h'
  rw [entropy_tag_length, variance_tag_length] at h'
  omega

/-- Every branch of the iteration body binds the loop-scoped variables
`(filepath[0], dice, dicePath)` before it can raise. -/
lemma iterBody_last {Img : Type} (rv re ra : Bool) (ns : Nat)
    (st : BatchState Img) (fp : PyPath × PyPath) (outputs : List Img)
    (dice : List ℚ) :
    (iterBody rv re ra ns st fp outputs dice).1.last
      = some (fp.1, dice, dicePath fp.1) := by
  unfold iterBody
  dsimp only
  repeat' first
    | rfl
    | split

/-- The iteration body only appends `nib.save` events, and each one targets
the mean path, the variance path (and then only when sampling exceeded one
and variance was requested), or the entropy path of the processed pair. -/
lemma iterBody_events_shape {Img : Type} (rv re ra : Bool) (ns : Nat)
    (st : BatchState Img) (fp : PyPath × PyPath) (outputs : List Img)
    (dice : List ℚ) :
    ∃ Δ, (iterBody rv re ra ns st fp outputs dice).1.events = st.events ++ Δ ∧
      ∀ e ∈ Δ, ∃ o t, e = Event.save o t ∧
        (t = meanPath fp.1
          ∨ (t = variancePath fp.1 ∧ (decide (1 < ns) && rv) = true)
          ∨ t = entropyPath fp.1) := by
  unfold iterBody
  dsimp only
  split
  · exact ⟨[], by simp, by simp⟩
  · split
    · exact ⟨[], by simp, by simp⟩
    · rename_i o0 _
      split
      · split
        · rename_i hb
          split
          · exact ⟨[.save o0 (meanPath fp.1)], by simp, by
              intro e he
              simp only [List.mem_singleton] at he
              exact ⟨o0, meanPath fp.1, by simp [he]⟩⟩
          · rename_i o1 _
            have hiv : (decide (1 < ns) && rv) = true := by
              rcases Bool.and_eq_true_iff.mp hb with ⟨h1, _⟩
              exact h1
            split
            · refine ⟨[.save o0 (meanPath fp.1), .save o1 (variancePath fp.1)], by simp, ?_⟩
              intro e he
              simp only [List.mem_cons, List.mem_singleton] at he
              rcases he with h | h | h
              · exact ⟨o0, meanPath fp.1, by simp [h]⟩
              · exact ⟨o1, variancePath fp.1, by simp [h, hiv]⟩
              · cases h
            · rename_i o2 _
              refine ⟨[.save o0 (meanPath fp.1), .save o1 (variancePath fp.1),
                       .save o2 (entropyPath fp.1)], by simp, ?_⟩
              intro e he
              simp only [List.mem_cons, List.mem_singleton] at he
              rcases he with h | h | h | h
              · exact ⟨o0, meanPath fp.1, by simp [h]⟩
              · exact ⟨o1, variancePath fp.1, by simp [h, hiv]⟩
              · exact ⟨o2, entropyPath fp.1, by simp [h]⟩
              · cases h
        · split
          · rename_i _ hiv
            split
            · exact ⟨[.save o0 (meanPath fp.1)], by simp, by
                intro e he
                simp only [List.mem_singleton] at he
                exact ⟨o0, meanPath fp.1, by simp [he]⟩⟩
            · rename_i o1 _
              refine ⟨[.save o0 (meanPath fp.1), .save o1 (variancePath fp.1)], by simp, ?_⟩
              intro e he
              simp only [List.mem_cons, List.mem_singleton] at he
              rcases he with h | h | h
              · exact ⟨o0, meanPath fp.1, by simp [h]⟩
              · exact ⟨o1, variancePath fp.1, by simp [h, hiv]⟩
              · cases h
          · split
            · exact ⟨[.save o0 (meanPath fp.1)], by simp, by
                intro e he
                simp only [List.mem_singleton] at he
                exact ⟨o0, meanPath fp.1, by simp [he]⟩⟩
            · rename_i o1 _
              refine ⟨[.save o0 (meanPath fp.1), .save o1 (entropyPath fp.1)], by simp, ?_⟩
              intro e he
              simp only [List.mem_cons, List.mem_singleton] at he
              rcases he with h | h | h
              · exact ⟨o0, meanPath fp.1, by simp [h]⟩
              · exact ⟨o1, entropyPath fp.1, by simp [h]⟩
              · cases h
      · exact ⟨[.save o0 (meanPath fp.1)], by simp, by
          intro e he
          simp only [List.mem_singleton] at he
          exact ⟨o0, meanPath fp.1, by simp [he]⟩⟩

/-- The whole loop only appends `nib.save` events; each targets a derived
path of one of the processed pairs, a variance target being possible only
when sampling exceeded one and variance was requested. -/
lemma runLoop_events_shape {Img : Type}
    (validate : PyPath × PyPath → List Img × List ℚ)
    (rv re ra : Bool) (ns : Nat) (l : List (PyPath × PyPath)) :
    ∀ st : BatchState Img,
      ∃ Δ, (runLoop validate rv re ra ns st l).1.events = st.events ++ Δ ∧
        ∀ e ∈ Δ, ∃ o t, e = Event.save o t ∧
          ∃ fp ∈ l, (t = meanPath fp.1
            ∨ (t = variancePath fp.1 ∧ (decide (1 < ns) && rv) = true)
            ∨ t = entropyPath fp.1) := by
  induction l with
  | nil =>
    intro st
    exact ⟨[], by simp [runLoop], by simp⟩
  | cons fp rest ih =>
    intro st
    obtain ⟨Δ₁, h1, h1m⟩ :=
      iterBody_events_shape rv re ra ns st fp (validate fp).1 (validate fp).2
    cases hIB : iterBody rv re ra ns st fp (validate fp).1 (validate fp).2 with
    | mk st1 err =>
      rw [hIB] at h1
      cases err with
      | none =>
        obtain ⟨Δ₂, h2, h2m⟩ := ih st1
        refine ⟨Δ₁ ++ Δ₂, ?_, ?_⟩
        · simp only [runLoop, hIB]
          rw [h2]
          simp only at h1
          rw [h1, List.append_assoc]
        · intro e he
          rcases List.mem_append.mp he with h | h
          · obtain ⟨o, t, het, hd⟩ := h1m e h
            exact ⟨o, t, het, fp, by simp, hd⟩
          · obtain ⟨o, t, het, fp', hfp', hd⟩ := h2m e h
            exact ⟨o, t, het, fp', by simp [hfp'], hd⟩
      | some e0 =>
        refine ⟨Δ₁, ?_, ?_⟩
        · simp only [runLoop, hIB]
          simpa using h1
        · intro e he
          obtain ⟨o, t, het, hd⟩ := h1m e he
          exact ⟨o, t, het, fp, by simp, hd⟩

/-- When the loop finishes without raising, the loop-scoped variables hold
the values derived from the final pair of the list. -/
lemma runLoop_last_ok {Img : Type}
    (validate : PyPath × PyPath → List Img × List ℚ)
    (rv re ra : Bool) (ns : Nat) (l : List (PyPath × PyPath)) :
    ∀ (st st' : BatchState Img) (hne : l ≠ []),
      runLoop validate rv re ra ns st l = (st', none) →
      st'.last = some ((l.getLast hne).1,
        (validate (l.getLast hne)).2, dicePath (l.getLast hne).1) := by
  induction l with
  | nil =>
    intro st st' hne
    exact absurd rfl hne
  | cons fp rest ih =>
    intro st st' hne h
    cases hIB : iterBody rv re ra ns st fp (validate fp).1 (validate fp).2 with
    | mk st1 err =>
      cases err with
      | none =>
        simp only [runLoop, hIB] at h
        cases rest with
        | nil =>
          simp only [runLoop] at h
          rw [Prod.mk.injEq] at h
          obtain ⟨rfl, -⟩ := h
          have hlast := iterBody_last rv re ra ns st fp (validate fp).1 (validate fp).2
          rw [hIB] at hlast
          simpa using hlast
        | cons r rs =>
          have hres := ih st1 st' (by simp) h
          simpa [List.getLast_cons] using hres
      | some e =>
        simp only [runLoop, hIB] at h
        simp at h

/-- Concrete input pair used by witnesses: volume `a.nii.gz`, truth `ga.nii.gz`. -/
def pairA : PyPath × PyPath := (⟨[], "a.nii.gz".data⟩, ⟨[], "ga.nii.gz".data⟩)

/-- Concrete input pair used by witnesses: volume `b.nii.gz`, truth `gb.nii.gz`. -/
def pairB : PyPath × PyPath := (⟨[], "b.nii.gz".data⟩, ⟨[], "gb.nii.gz".data⟩)

/-- Concrete Single-Volume Validator collaborator used by witnesses: it
returns three output volumes (mean, variance, entropy) and a Dice vector. -/
def cValidate : PyPath × PyPath → List Nat × List ℚ := fun _ => ([7, 8, 9], [0, 1])

/-- Concrete metric used by witnesses: full overlap scores 1, otherwise 0. -/
def cMetric : List Bool → List Bool → ℚ := fun a b => if a = b then 1 else 0

/-- C1: in the Single-Volume Validator (lines 74–81), the ground truth is
first remapped through the label mapping, and then for each class index
`i < n_classes` the Dice vector entry at `i` is the Metric Engine's overlap
of the boolean masks `prediction == i` and `remapped truth == i`. -/
theorem validate_dice_entry
    (replace : List Nat → List (Nat × Nat) → List Nat)
    (read_mapping : List Char → List (Nat × Nat))
    (metric : List Bool → List Bool → ℚ)
    (outputs : List (List Nat)) (y : List Nat) (mapping_y : List Char)
    (n_classes : Nat) (P : List Nat)
    (h0 : outputs.get? 0 = some P) (i : Nat) (hi : i < n_classes) :
    ∃ d, diceSection replace read_mapping metric outputs y mapping_y n_classes
        = .ok d ∧
      d[i]? = some (metric (eqMask P i)
        (eqMask (replace y (read_mapping mapping_y)) i)) := by
  refine ⟨diceVec metric P (replace y (read_mapping mapping_y)) n_classes, ?_, ?_⟩
  · unfold diceSection
    rw [h0]
  · exact diceVec_get metric P (replace y (read_mapping mapping_y)) n_classes i hi

/-- Witness for C1 at a concrete instance. -/
theorem validate_dice_entry_witness :
    ∃ d, diceSection (fun v _ => v) (fun _ => []) cMetric [[0, 1]] [1, 0] [] 2
        = .ok d ∧
      d[0]? = some (cMetric (eqMask [0, 1] 0) (eqMask [1, 0] 0)) :=
  validate_dice_entry (fun v _ => v) (fun _ => []) cMetric [[0, 1]] [1, 0] [] 2
    [0, 1] rfl 0 (by decide)

/-- C2 counterexample: for input name `volume.nii.gz` the code does not
derive the names `volume_mean.nii.gz`, `volume_variance.nii.gz`,
`volume_entropy.nii.gz`, `volume_dice.npy` claimed by the specification. -/
theorem output_names_claimed_counterexample :
    ¬((meanPath ⟨[], "volume.nii.gz".data⟩).name = "volume_mean.nii.gz".data ∧
      (variancePath ⟨[], "volume.nii.gz".data⟩).name = "volume_variance.nii.gz".data ∧
      (entropyPath ⟨[], "volume.nii.gz".data⟩).name = "volume_entropy.nii.gz".data ∧
      (dicePath ⟨[], "volume.nii.gz".data⟩).name = "volume_dice.npy".data) := by
  decide

/-- C2 amended: for input `volume.nii.gz` the derived names are
`volume.nii_mean..nii..gz`, `volume.nii_variance..nii..gz`,
`volume.nii_entropy..nii..gz` and `volume.nii_dice.npy` — the Python stem
keeps the `.nii` part and the dot-join of the suffix list doubles the dots —
and every derived path stays in the input's directory. -/
theorem output_names_actual :
    (meanPath ⟨[], "volume.nii.gz".data⟩).name = "volume.nii_mean..nii..gz".data ∧
    (variancePath ⟨[], "volume.nii.gz".data⟩).name
      = "volume.nii_variance..nii..gz".data ∧
    (entropyPath ⟨[], "volume.nii.gz".data⟩).name
      = "volume.nii_entropy..nii..gz".data ∧
    (dicePath ⟨[], "volume.nii.gz".data⟩).name = "volume.nii_dice.npy".data ∧
    ∀ p : PyPath, (meanPath p).dir = p.dir ∧ (variancePath p).dir = p.dir ∧
      (entropyPath p).dir = p.dir ∧ (dicePath p).dir = p.dir :=
  ⟨by decide, by decide, by decide, by decide, fun p => ⟨rfl, rfl, rfl, rfl⟩⟩

/-- C6: the claim says a missing volume file raises a "file not found"
condition checked on the first path of the pair.  The code instead applies
`Path` to the whole tuple, which raises `TypeError` on every call — before
any load or prediction, whatever the filesystem contains and whatever error
the claim expected. -/
theorem guard_raises_typeError :
    (∀ (isFile : List Char → Bool) (load : List Char → List Nat)
        (predict : List Nat → List (List Nat))
        (replace : List Nat → List (Nat × Nat) → List Nat)
        (read_mapping : List Char → List (Nat × Nat))
        (metric : List Bool → List Bool → ℚ) (n_classes : Nat)
        (mapping_y : List Char) (a b : List Char),
      validate_from_filepath isFile load predict replace read_mapping metric
          n_classes mapping_y (.pairV a b) = .error .typeError) ∧
    (validate_from_filepath (fun _ => false) (fun _ => []) (fun v => [v])
        (fun v _ => v) (fun _ => []) cMetric 2 []
        (.pairV "brain.nii.gz".data "labels.nii.gz".data)
      = .error .typeError) ∧
    (∀ m : List Char, PyErr.typeError ≠ PyErr.fileNotFound m) :=
  ⟨fun _ _ _ _ _ _ _ _ _ _ => rfl, rfl, fun _ h => PyErr.noConfusion h⟩

/-- C8: assuming the Metric Engine returns values in `[0, 1]` on every pair
of masks, the freshly constructed Dice vector has length `n_classes` and all
entries in `[0, 1]`. -/
theorem dice_vector_length_bounds (metric : List Bool → List Bool → ℚ)
    (prediction y : List Nat) (n : Nat)
    (h : ∀ a b, 0 ≤ metric a b ∧ metric a b ≤ 1) :
    (diceVec metric prediction y n).length = n ∧
      ∀ x ∈ diceVec metric prediction y n, 0 ≤ x ∧ x ≤ 1 := by
  constructor
  · exact diceVec_length metric prediction y n
  · intro x hx
    rw [diceVec_eq_map] at hx
    obtain ⟨i, -, rfl⟩ := List.mem_map.mp hx
    exact h _ _

/-- Witness for C8 at a concrete instance. -/
theorem dice_vector_length_bounds_witness :
    (diceVec cMetric [0, 1, 1] [1, 1, 0] 3).length = 3 ∧
      ∀ x ∈ diceVec cMetric [0, 1, 1] [1, 1, 0] 3, 0 ≤ x ∧ x ≤ 1 :=
  dice_vector_length_bounds cMetric [0, 1, 1] [1, 1, 0] 3
    (fun a b => by dsimp only [cMetric]; split <;> norm_num)

/-- C10: calling the Batch Validator on an empty sequence runs no iteration,
so the statements after the loop hit the unbound loop variables and the call
raises `NameError`, with nothing written to disk. -/
theorem empty_batch_name_error {Img : Type}
    (validate : PyPath × PyPath → List Img × List ℚ)
    (rv re ra : Bool) (ns : Nat) (fs0 : List PyPath) :
    validate_from_filepaths validate rv re ra ns fs0 []
      = (⟨[], fs0, none⟩, some .nameError) := rfl

/-- C3: in a successful Batch Validator iteration with
`returnArrayFromImages = false`, a variance volume is written iff
`n_samples > 1` and variance was requested; with entropy also requested both
secondary volumes are written, with entropy not requested only the variance
volume is, and in every other case `outputs[1]` is written to the
entropy-named path. -/
theorem secondary_write_selection {Img : Type} (rv re : Bool) (ns : Nat)
    (st st' : BatchState Img) (fp : PyPath × PyPath) (outputs : List Img)
    (dice : List ℚ)
    (h : iterBody rv re false ns st fp outputs dice = (st', none)) :
    ∃ Δ, st'.events = st.events ++ Δ ∧
      ((∃ o, Event.save o (variancePath fp.1) ∈ Δ) ↔ (1 < ns ∧ rv = true)) ∧
      ((1 < ns ∧ rv = true ∧ re = true) →
        ∃ o0 o1 o2, Δ = [Event.save o0 (meanPath fp.1),
          Event.save o1 (variancePath fp.1), Event.save o2 (entropyPath fp.1)]) ∧
      ((1 < ns ∧ rv = true ∧ re = false) →
        ∃ o0 o1, Δ = [Event.save o0 (meanPath fp.1),
          Event.save o1 (variancePath fp.1)]) ∧
      (¬(1 < ns ∧ rv = true) →
        ∃ o0 o1, outputs.get? 1 = some o1 ∧
          Δ = [Event.save o0 (meanPath fp.1), Event.save o1 (entropyPath fp.1)]) := by
  unfold iterBody at h
  dsimp only at h
  split at h
  · simp at h
  · split at h
    · simp at h
    · rename_i o0 ho0
      split at h
      · split at h
        · rename_i hb
          have hns : 1 < ns :=
            of_decide_eq_true (Bool.and_eq_true_iff.mp (Bool.and_eq_true_iff.mp hb).1).1
          have hrv : rv = true := (Bool.and_eq_true_iff.mp (Bool.and_eq_true_iff.mp hb).1).2
          have hre : re = true := (Bool.and_eq_true_iff.mp hb).2
          split at h
          · simp at h
          · rename_i o1 ho1
            split at h
            · simp at h
            · rename_i o2 ho2
              rw [Prod.mk.injEq] at h
              obtain ⟨hst, -⟩ := h
              refine ⟨[Event.save o0 (meanPath fp.1), Event.save o1 (variancePath fp.1),
                Event.save o2 (entropyPath fp.1)], ?_, ?_, ?_, ?_, ?_⟩
              · rw [← hst]
                simp
              · exact ⟨fun _ => ⟨hns, hrv⟩, fun _ => ⟨o1, by simp⟩⟩
              · exact fun _ => ⟨o0, o1, o2, rfl⟩
              · rintro ⟨-, -, h3⟩
                rw [h3] at hre
                cases hre
              · exact fun hn => absurd ⟨hns, hrv⟩ hn
        · rename_i hnb
          split at h
          · rename_i hiv
            have hns : 1 < ns := of_decide_eq_true (Bool.and_eq_true_iff.mp hiv).1
            have hrv : rv = true := (Bool.and_eq_true_iff.mp hiv).2
            have hre : re = false := by
              cases hcre : re
              · rfl
              · exact absurd (by rw [hiv, hcre]; rfl) hnb
            split at h
            · simp at h
            · rename_i o1 ho1
              rw [Prod.mk.injEq] at h
              obtain ⟨hst, -⟩ := h
              refine ⟨[Event.save o0 (meanPath fp.1),
                Event.save o1 (variancePath fp.1)], ?_, ?_, ?_, ?_, ?_⟩
              · rw [← hst]
                simp
              · exact ⟨fun _ => ⟨hns, hrv⟩, fun _ => ⟨o1, by simp⟩⟩
              · rintro ⟨-, -, h3⟩
                rw [h3] at hre
                cases hre
              · exact fun _ => ⟨o0, o1, rfl⟩
              · exact fun hn => absurd ⟨hns, hrv⟩ hn
          · rename_i hiv
            have hniv : ¬(1 < ns ∧ rv = true) := by
              rintro ⟨hns, hrv⟩
              exact hiv (by rw [hrv, decide_eq_true hns]; rfl)
            split at h
            · simp at h
            · rename_i o1 ho1
              rw [Prod.mk.injEq] at h
              obtain ⟨hst, -⟩ := h
              refine ⟨[Event.save o0 (meanPath fp.1),
                Event.save o1 (entropyPath fp.1)], ?_, ?_, ?_, ?_, ?_⟩
              · rw [← hst]
                simp
              · constructor
                · rintro ⟨o, ho⟩
                  simp only [List.mem_cons, List.mem_singleton] at ho
                  rcases ho with ho | ho | ho
                  · injection ho with h1 h2
                    exact absurd h2.symm (meanPath_ne_variancePath fp.1)
                  · injection ho with h1 h2
                    exact absurd h2.symm (entropyPath_ne_variancePath fp.1)
                  · cases ho
                · exact fun hc => absurd hc hniv
              · rintro ⟨hns, hrv, -⟩
                exact absurd ⟨hns, hrv⟩ hniv
              · rintro ⟨hns, hrv, -⟩
                exact absurd ⟨hns, hrv⟩ hniv
              · exact fun _ => ⟨o0, o1, ho1, rfl⟩
      · rename_i hra
        exact absurd rfl hra

/-- Result state of a concrete successful iteration used by the C3 witness. -/
def stC3 : BatchState Nat :=
  (iterBody true true false 4 ⟨[], [], none⟩ pairA [7, 8, 9] [0, 1]).1

/-- Witness for C3 at a concrete instance. -/
theorem secondary_write_selection_witness :
    ∃ Δ, stC3.events = (⟨[], [], none⟩ : BatchState Nat).events ++ Δ ∧
      ((∃ o, Event.save o (variancePath pairA.1) ∈ Δ) ↔ (1 < 4 ∧ true = true)) ∧
      ((1 < 4 ∧ true = true ∧ true = true) →
        ∃ o0 o1 o2, Δ = [Event.save o0 (meanPath pairA.1),
          Event.save o1 (variancePath pairA.1), Event.save o2 (entropyPath pairA.1)]) ∧
      ((1 < 4 ∧ true = true ∧ true = false) →
        ∃ o0 o1, Δ = [Event.save o0 (meanPath pairA.1),
          Event.save o1 (variancePath pairA.1)]) ∧
      (¬(1 < 4 ∧ true = true) →
        ∃ o0 o1, ([7, 8, 9] : List Nat).get? 1 = some o1 ∧
          Δ = [Event.save o0 (meanPath pairA.1), Event.save o1 (entropyPath pairA.1)]) :=
  secondary_write_selection true true 4 ⟨[], [], none⟩ stC3 pairA [7, 8, 9] [0, 1] rfl

/-- C5: when any of the derived mean, variance or entropy paths already
exists, the iteration raises the "already exists" error without writing any
file of that iteration; the check is per iteration, so a concrete batch of
two pairs writes the files of the first pair and then halts on the second. -/
theorem exists_check_aborts_before_write {Img : Type} (rv re ra : Bool)
    (ns : Nat) (st : BatchState Img) (fp : PyPath × PyPath)
    (outputs : List Img) (dice : List ℚ)
    (h : meanPath fp.1 ∈ st.fs ∨ variancePath fp.1 ∈ st.fs ∨
      entropyPath fp.1 ∈ st.fs) :
    ((iterBody rv re ra ns st fp outputs dice).1.events = st.events ∧
      (iterBody rv re ra ns st fp outputs dice).1.fs = st.fs ∧
      (iterBody rv re ra ns st fp outputs dice).2
        = some (.alreadyExists (meanPath fp.1) (variancePath fp.1)
            (entropyPath fp.1))) ∧
    ((validate_from_filepaths cValidate false false false 1
        [meanPath pairB.1] [pairA, pairB]).2
      = some (.alreadyExists (meanPath pairB.1) (variancePath pairB.1)
          (entropyPath pairB.1)) ∧
      Event.save 7 (meanPath pairA.1) ∈ (validate_from_filepaths cValidate
        false false false 1 [meanPath pairB.1] [pairA, pairB]).1.events ∧
      Event.save 8 (entropyPath pairA.1) ∈ (validate_from_filepaths cValidate
        false false false 1 [meanPath pairB.1] [pairA, pairB]).1.events) := by
  constructor
  · unfold iterBody
    dsimp only
    rw [if_pos h]
    exact ⟨rfl, rfl, rfl⟩
  · exact ⟨by decide, by decide, by decide⟩

/-- Witness for C5 at a concrete instance. -/
theorem exists_check_aborts_before_write_witness :
    (((iterBody true true false 4
        (⟨[], [meanPath pairA.1], none⟩ : BatchState Nat) pairA
        [7, 8, 9] [0, 1]).1.events = [] ∧
      (iterBody true true false 4
        (⟨[], [meanPath pairA.1], none⟩ : BatchState Nat) pairA
        [7, 8, 9] [0, 1]).1.fs = [meanPath pairA.1] ∧
      (iterBody true true false 4
        (⟨[], [meanPath pairA.1], none⟩ : BatchState Nat) pairA
        [7, 8, 9] [0, 1]).2
        = some (.alreadyExists (meanPath pairA.1) (variancePath pairA.1)
            (entropyPath pairA.1))) ∧
    ((validate_from_filepaths cValidate false false false 1
        [meanPath pairB.1] [pairA, pairB]).2
      = some (.alreadyExists (meanPath pairB.1) (variancePath pairB.1)
          (entropyPath pairB.1)) ∧
      Event.save 7 (meanPath pairA.1) ∈ (validate_from_filepaths cValidate
        false false false 1 [meanPath pairB.1] [pairA, pairB]).1.events ∧
      Event.save 8 (entropyPath pairA.1) ∈ (validate_from_filepaths cValidate
        false false false 1 [meanPath pairB.1] [pairA, pairB]).1.events)) :=
  exists_check_aborts_before_write true true false 4
    (⟨[], [meanPath pairA.1], none⟩ : BatchState Nat)
    pairA [7, 8, 9] [0, 1] (by decide)

/-- C9: with `returnArrayFromImages = false` and the include-variance
condition false, the fall-through branch indexes `outputs[1]`; when the
predictor returned only the mean, the iteration writes the mean volume and
then fails with an out-of-range access instead of writing nothing. -/
theorem fallthrough_indexes_outputs_one {Img : Type} (rv re : Bool)
    (ns : Nat) (st : BatchState Img) (fp : PyPath × PyPath) (o : Img)
    (dice : List ℚ)
    (hiv : (decide (1 < ns) && rv) = false)
    (hchk : ¬(meanPath fp.1 ∈ st.fs ∨ variancePath fp.1 ∈ st.fs ∨
      entropyPath fp.1 ∈ st.fs)) :
    iterBody rv re false ns st fp [o] dice
      = (⟨st.events ++ [Event.save o (meanPath fp.1)],
          st.fs ++ [meanPath fp.1], some (fp.1, dice, dicePath fp.1)⟩,
        some .indexError) := by
  unfold iterBody
  dsimp only
  rw [if_neg hchk]
  simp only [List.get?, hiv, Bool.false_and, Bool.false_eq_true, if_false,
    if_pos rfl, if_true]

/-- Witness for C9 at a concrete instance. -/
theorem fallthrough_indexes_outputs_one_witness :
    iterBody false false false 1 (⟨[], [], none⟩ : BatchState Nat) pairA
        [7] [0, 1]
      = (⟨[Event.save 7 (meanPath pairA.1)], [meanPath pairA.1],
          some (pairA.1, [0, 1], dicePath pairA.1)⟩, some .indexError) :=
  fallthrough_indexes_outputs_one false false 1 ⟨[], [], none⟩ pairA 7 [0, 1]
    rfl (by decide)

/-- Every event of a whole batch run either is a `nib.save` of a derived
mean, variance (only when sampling exceeded one and variance was requested)
or entropy path of one of the input pairs, or is not a volume save at all
(the two final prints and the Dice save). -/
lemma batch_events_shape {Img : Type}
    (validate : PyPath × PyPath → List Img × List ℚ)
    (rv re ra : Bool) (ns : Nat) (fs0 : List PyPath)
    (fps : List (PyPath × PyPath)) :
    ∀ e ∈ (validate_from_filepaths validate rv re ra ns fs0 fps).1.events,
      (∃ o t, e = Event.save o t ∧ ∃ fp ∈ fps,
        (t = meanPath fp.1
          ∨ (t = variancePath fp.1 ∧ (decide (1 < ns) && rv) = true)
          ∨ t = entropyPath fp.1)) ∨ saveTarget e = none := by
  intro e he
  unfold validate_from_filepaths at he
  obtain ⟨Δ, hΔ, hm⟩ := runLoop_events_shape validate rv re ra ns fps ⟨[], fs0, none⟩
  cases hrl : runLoop validate rv re ra ns ⟨[], fs0, none⟩ fps with
  | mk st err =>
    rw [hrl] at hΔ he
    simp only at hΔ
    cases err with
    | some e0 =>
      dsimp only at he
      rw [hΔ] at he
      obtain ⟨o, t, het, fp, hfp, hd⟩ := hm e (by simpa using he)
      exact Or.inl ⟨o, t, het, fp, hfp, hd⟩
    | none =>
      cases hl : st.last with
      | none =>
        dsimp only at he
        rw [hl] at he
        dsimp only at he
        rw [hΔ] at he
        obtain ⟨o, t, het, fp, hfp, hd⟩ := hm e (by simpa using he)
        exact Or.inl ⟨o, t, het, fp, hfp, hd⟩
      | some trip =>
        obtain ⟨p, d, dp⟩ := trip
        dsimp only at he
        rw [hl] at he
        dsimp only at he
        rw [hΔ] at he
        have he2 : e ∈ Δ ∨ e = Event.printPath p ∨
            e = Event.printDice (listMean d) ∨ e = Event.saveDice dp d := by
          simpa using he
        rcases he2 with hin | rfl | rfl | rfl
        · obtain ⟨o, t, het, fp, hfp, hd⟩ := hm e hin
          exact Or.inl ⟨o, t, het, fp, hfp, hd⟩
        · exact Or.inr rfl
        · exact Or.inr rfl
        · exact Or.inr rfl

/-- C4: after a successful batch over any non-empty list of pairs, the trace
ends with exactly the three final actions — print of the last filename,
print of the mean of the last Dice vector, save of the last Dice vector to
the last derived dice path — and everything before them is a volume save;
no aggregate is computed and no earlier Dice vector is ever saved. -/
theorem batch_final_actions_last_only {Img : Type}
    (validate : PyPath × PyPath → List Img × List ℚ)
    (rv re ra : Bool) (ns : Nat) (fs0 : List PyPath)
    (fps : List (PyPath × PyPath)) (st' : BatchState Img)
    (hne : fps ≠ [])
    (h : validate_from_filepaths validate rv re ra ns fs0 fps = (st', none)) :
    ∃ es, st'.events = es ++
        [Event.printPath (fps.getLast hne).1,
         Event.printDice (listMean (validate (fps.getLast hne)).2),
         Event.saveDice (dicePath (fps.getLast hne).1)
           (validate (fps.getLast hne)).2] ∧
      ∀ e ∈ es, ∃ o t, e = Event.save o t := by
  unfold validate_from_filepaths at h
  cases hrl : runLoop validate rv re ra ns ⟨[], fs0, none⟩ fps with
  | mk st err =>
    rw [hrl] at h
    cases err with
    | some e0 => simp at h
    | none =>
      have hlast := runLoop_last_ok validate rv re ra ns fps ⟨[], fs0, none⟩ st hne hrl
      dsimp only at h
      rw [hlast] at h
      dsimp only at h
      rw [Prod.mk.injEq] at h
      obtain ⟨hst, -⟩ := h
      obtain ⟨Δ, hΔ, hm⟩ := runLoop_events_shape validate rv re ra ns fps ⟨[], fs0, none⟩
      rw [hrl] at hΔ
      simp only at hΔ
      refine ⟨st.events, ?_, ?_⟩
      · rw [← hst]
      · intro e he
        rw [hΔ] at he
        obtain ⟨o, t, het, -⟩ := hm e (by simpa using he)
        exact ⟨o, t, het⟩

/-- Result state of a concrete successful batch used by the C4 witness. -/
def stC4 : BatchState Nat :=
  (validate_from_filepaths cValidate false false false 1 [] [pairA]).1

/-- Witness for C4 at a concrete instance. -/
theorem batch_final_actions_last_only_witness :
    ∃ es, stC4.events = es ++
        [Event.printPath pairA.1,
         Event.printDice (listMean (cValidate pairA).2),
         Event.saveDice (dicePath pairA.1) (cValidate pairA).2] ∧
      ∀ e ∈ es, ∃ o t, e = Event.save o t :=
  batch_final_actions_last_only cValidate false false false 1 [] [pairA] stC4
    (by decide) rfl

/-- C7: in every batch run with `n_samples = 1`, every volume save targets a
derived mean or entropy path of one of the input pairs, both of which always
differ from the variance path derived from the same input; on the concrete
two-pair scenario no save targets either variance path, whatever the three
boolean flags are. -/
theorem n_samples_one_no_variance_write {Img : Type}
    (validate : PyPath × PyPath → List Img × List ℚ)
    (rv re ra : Bool) (fs0 : List PyPath) (fps : List (PyPath × PyPath)) :
    (∀ e ∈ (validate_from_filepaths validate rv re ra 1 fs0 fps).1.events,
      ∀ p, saveTarget e = some p →
        ∃ fp ∈ fps, p = meanPath fp.1 ∨ p = entropyPath fp.1) ∧
    (∀ q : PyPath, meanPath q ≠ variancePath q ∧
      entropyPath q ≠ variancePath q) ∧
    (∀ rv' re' ra' : Bool,
      ∀ e ∈ (validate_from_filepaths cValidate rv' re' ra' 1 []
          [pairA, pairB]).1.events,
        saveTarget e ≠ some (variancePath pairA.1) ∧
        saveTarget e ≠ some (variancePath pairB.1)) := by
  refine ⟨?_,
    fun q => ⟨meanPath_ne_variancePath q, entropyPath_ne_variancePath q⟩,
    by decide⟩
  intro e he p hp
  rcases batch_events_shape validate rv re ra 1 fs0 fps e he with
    ⟨o, t, rfl, fp, hfp, hd⟩ | hnone
  · have ht : t = p := by simpa [saveTarget] using hp
    subst ht
    rcases hd with hm | ⟨-, hiv⟩ | hent
    · exact ⟨fp, hfp, Or.inl hm⟩
    · simp at hiv
    · exact ⟨fp, hfp, Or.inr hent⟩
  · rw [hnone] at hp
    cases hp

end KwykValidate
